import Mathlib

/-!
Shallow embedding of the trailerfin refresh-orchestration core (scanner.py,
file_manager.py, cache.py) and proofs about the spec's claims.

Conventions of the embedding:
* Python strings are modelled as `List Char` over ASCII; the handful of
  `str`/`os.path`/`urllib` primitives the code uses are re-implemented
  character by character below, following CPython's documented behaviour
  on ASCII input.
* Filesystem and network collaborators (`os.walk`, NFO sidecar lookup,
  `os.listdir`, the IMDb resolver, HTTP transfer) are oracles supplied as
  explicit function-valued parameters; exceptions they may raise are
  modelled with `Except`.
* Mutable dictionaries (`expiration_times`, `ignored_titles`) are
  insertion-ordered association lists with Python `dict` update semantics.
-/

namespace Trailerfin

/-- Python `str` modelled as a list of (ASCII) characters. -/
abbrev Str := List Char

/-- Literal helper: a Lean string literal viewed as a `Str`. -/
def lit (s : String) : Str := s.data

/-- ASCII case of Python `str.lower` for one character. -/
def lowerChar (c : Char) : Char :=
  if 'A' ≤ c ∧ c ≤ 'Z' then Char.ofNat (c.toNat + 32) else c

/-- Python `str.lower` on ASCII strings. -/
def pyLower (s : Str) : Str := s.map lowerChar

/-- ASCII whitespace recognised by Python's `str.strip` and the regex `\s`. -/
def isPySpace (c : Char) : Bool :=
  c = ' ' ∨ c = '\t' ∨ c = '\n' ∨ c = '\x0d' ∨ c = '\x0b' ∨ c = '\x0c'

/-- Python `str.strip()` (whitespace on both ends, ASCII). -/
def pyStrip (s : Str) : Str :=
  ((s.dropWhile isPySpace).reverse.dropWhile isPySpace).reverse

/-- The recognized video extension tuple from `scanner.py`. -/
def videoExtensions : List Str :=
  [lit ".mp4", lit ".mkv", lit ".avi", lit ".mov", lit ".wmv", lit ".m4v",
   lit ".flv", lit ".webm"]

/-- `f.lower().endswith(video_extensions)` from `scanner.py`. -/
def isVideoFile (f : Str) : Bool :=
  videoExtensions.any (fun e => e.isSuffixOf (pyLower f))

/-- `sum(1 for f in files if f.lower().endswith(video_extensions))`. -/
def countVideos (files : List Str) : Nat :=
  (files.filter isVideoFile).length

/-- `root.rstrip(os.sep)` with the POSIX separator. -/
def rstripSlash (s : Str) : Str :=
  (s.reverse.dropWhile (fun c => c = '/')).reverse

/-- `os.path.basename` (POSIX): the part after the last slash. -/
def basename (p : Str) : Str :=
  (p.reverse.takeWhile (fun c => c ≠ '/')).reverse

/-- `os.path.dirname` (POSIX): everything before the last slash, with
trailing slashes stripped unless the result is all slashes. -/
def dirname (p : Str) : Str :=
  let head := (p.reverse.dropWhile (fun c => c ≠ '/')).reverse
  if head ≠ [] ∧ ¬ head.all (fun c => c = '/') then rstripSlash head else head

/-- `os.path.join a b` (POSIX, two arguments as used by the code). -/
def pyJoin (a b : Str) : Str :=
  if b.head? = some '/' then b
  else if a = [] ∨ a.getLast? = some '/' then a ++ b
  else a ++ '/' :: b

/-- One alternative of `re.match(r"(season|saison|s)\s*\d+", name)`: the
literal `w`, then any run of whitespace, then at least one digit. -/
def seasonAlt (w : Str) (s : Str) : Bool :=
  w.isPrefixOf s &&
    match (s.drop w.length).dropWhile isPySpace with
    | d :: _ => d.isDigit
    | [] => false

/-- `re.match(r"(season|saison|s)\s*\d+", name)` as a Boolean: the match is
anchored at the start and any of the three alternatives may succeed. -/
def isSeasonFolder (s : Str) : Bool :=
  seasonAlt (lit "season") s || seasonAlt (lit "saison") s || seasonAlt (lit "s") s

/-- After the literal `{imdb-tt`: the maximal digit run (at least one
digit) must be closed by `}`; group 1 is `tt` plus the digits. -/
def imdbTail (rest : Str) : Option Str :=
  if rest.takeWhile Char.isDigit = [] then none
  else
    match rest.drop (rest.takeWhile Char.isDigit).length with
    | '}' :: _ => some (lit "tt" ++ rest.takeWhile Char.isDigit)
    | _ => none

/-- Match of `\{imdb-(tt\d+)\}` anchored at the head of `s`, returning
group 1. -/
def imdbAt (s : Str) : Option Str :=
  if (lit "\x7bimdb-tt").isPrefixOf s then imdbTail (s.drop 8) else none

/-- `re.search(r"\{imdb-(tt\d+)\}", root)`: group 1 of the leftmost match. -/
def firstImdb : Str → Option Str
  | [] => none
  | c :: rest =>
    match imdbAt (c :: rest) with
    | some id => some id
    | none => firstImdb rest

/-- The literal marker `f"{{imdb-{id}}}"` used in the `endswith` guard. -/
def imdbMarker (id : Str) : Str := lit "\x7bimdb-" ++ id ++ lit "\x7d"

/-- Python truthiness of an optional string (`None` and `""` are falsy). -/
def pyTruthyStr (o : Option Str) : Bool :=
  match o with
  | some s => ¬ s.isEmpty
  | none => false

/-! ### URL query parsing (`urllib.parse` on ASCII) and Python `int` -/

/-- Split at the first occurrence of `sep`: the part before it, and the
part after it if present (`str.split(sep, 1)`). -/
def splitFirst (sep : Char) : Str → Str × Option Str
  | [] => ([], none)
  | c :: rest =>
    if c = sep then ([], some rest)
    else
      match splitFirst sep rest with
      | (before, after) => (c :: before, after)

/-- Python `str.split(sep)`: every occurrence splits, empty fields kept. -/
def pySplit (sep : Char) (s : Str) : List Str :=
  s.foldr
    (fun c acc =>
      match acc with
      | h :: t => if c = sep then [] :: h :: t else (c :: h) :: t
      | [] => [[c]])
    [[]]

/-- The query component of `urlsplit`: the fragment (everything from the
first `#`) is cut off first, then the query is what follows the first
`?` of the remainder (empty when there is none). -/
def extract_query (url : Str) : Str :=
  ((splitFirst '?' (splitFirst '#' url).1).2).getD []

/-- `str.replace('+', ' ')` applied before unquoting, per `parse_qsl`. -/
def plusToSpace (s : Str) : Str :=
  s.map (fun c => if c = '+' then ' ' else c)

/-- Hexadecimal digit value, if any. -/
def hexVal (c : Char) : Option Nat :=
  if '0' ≤ c ∧ c ≤ '9' then some (c.toNat - '0'.toNat)
  else if 'a' ≤ c ∧ c ≤ 'f' then some (c.toNat - 'a'.toNat + 10)
  else if 'A' ≤ c ∧ c ≤ 'F' then some (c.toNat - 'A'.toNat + 10)
  else none

/-- `urllib.parse.unquote` restricted to ASCII: a valid `%XY` escape
decodes to the byte's character, an invalid escape is left verbatim. -/
def unquoteA : Str → Str
  | [] => []
  | '%' :: a :: b :: rest2 =>
    match hexVal a, hexVal b with
    | some ha, some hb => Char.ofNat (16 * ha + hb) :: unquoteA rest2
    | _, _ => '%' :: unquoteA (a :: b :: rest2)
  | '%' :: rest => '%' :: unquoteA rest
  | c :: rest => c :: unquoteA rest

/-- One field of `parse_qsl` (`keep_blank_values=False`,
`strict_parsing=False`): empty fields, fields without `=` and fields
with an empty value are dropped; name and value get `+` → space and
percent-unquoting. -/
def qslField (field : Str) : Option (Str × Str) :=
  if field = [] then none
  else
    match splitFirst '=' field with
    | (_, none) => none
    | (n, some v) =>
      if v = [] then none
      else some (unquoteA (plusToSpace n), unquoteA (plusToSpace v))

/-- `urllib.parse.parse_qsl` on a query string. -/
def parse_qsl (qs : Str) : List (Str × Str) :=
  (pySplit '&' qs).filterMap qslField

/-- `parse_qs(qs).get(key)` as the ordered list of values bound to `key`
(the empty list standing for an absent key). -/
def parse_qs_get (qs : Str) (key : Str) : List Str :=
  (parse_qsl qs).filterMap (fun p => if p.1 = key then some p.2 else none)

/-- Digit run with single underscores strictly between digits, as accepted
by Python `int` after the optional sign; consumes the whole string. -/
def udLoop (acc : Nat) : Str → Option Nat
  | [] => some acc
  | '_' :: rest =>
    match rest with
    | d :: rest2 =>
      if d.isDigit then udLoop (acc * 10 + (d.toNat - '0'.toNat)) rest2 else none
    | [] => none
  | d :: rest =>
    if d.isDigit then udLoop (acc * 10 + (d.toNat - '0'.toNat)) rest else none

/-- The digits of a Python `int` literal (at least one digit required). -/
def parseUDigits : Str → Option Nat
  | [] => none
  | d :: rest =>
    if d.isDigit then udLoop (d.toNat - '0'.toNat) rest else none

/-- Python `int(s)` on ASCII input: surrounding whitespace stripped, an
optional sign, then underscore-separated digits; `none` models the
`ValueError` the callers catch. -/
def pyInt (s : Str) : Option Int :=
  match pyStrip s with
  | '+' :: r => (parseUDigits r).map Int.ofNat
  | '-' :: r => (parseUDigits r).map (fun n => -(n : Int))
  | r => (parseUDigits r).map Int.ofNat

/-- `get_expiration_time` (file_manager.py lines 52-63): parse the URL's
query string, take the list bound to `Expires`, and convert its first
element with `int`; any failure (absent key or `ValueError`) yields
`None`. -/
def get_expiration_time (url : Str) : Option Int :=
  match parse_qs_get (extract_query url) (lit "Expires") with
  | [] => none
  | v :: _ => pyInt v

/-- Python truthiness of an `int | None` value (`None` and `0` falsy). -/
def pyTruthyInt (o : Option Int) : Bool :=
  match o with
  | some v => v ≠ 0
  | none => false

/-! ### Caches as insertion-ordered dictionaries -/

/-- `dict.get` on an insertion-ordered association list (keys are unique
in any list a Python `dict` can produce). -/
def dictGet {α : Type} : List (Str × α) → Str → Option α
  | [], _ => none
  | p :: d, k => if p.1 = k then some p.2 else dictGet d k

/-- `dict[k] = v`: replace in place when present, append otherwise. -/
def dictSet {α : Type} : List (Str × α) → Str → α → List (Str × α)
  | [], k, v => [(k, v)]
  | p :: d, k, v => if p.1 = k then (k, v) :: d else p :: dictSet d k v

/-! ### The per-candidate worker `process_imdb_folder` -/

/-- One value of `ignored_titles` (scanner.py lines 99-103). -/
structure IgnoreEntry where
  path : Str
  last_checked : Nat
  reason : Str
deriving DecidableEq

/-- Terminal situations of one `process_imdb_folder` run, following the
spec's state names; `resolvedNoDirect` is the silent fall-through when a
video page is found but no direct URL, `downloadFailed` the logged-only
`download_trailer` false return, and `failed` the outer `except` branch. -/
inductive WOutcome
  | ignoredSkip
  | validCached
  | persisted
  | markedIgnored
  | resolvedNoDirect
  | downloadDone
  | downloadFailed
  | failed
deriving DecidableEq

/-- The collaborators one worker run consults: the clock, `os.path.exists`,
the two resolver calls and the two asset writers; `Except.error` models
an exception escaping the collaborator into the worker's `try`. -/
structure World where
  now : Nat
  pathExists : Str → Bool
  page_url : Except Unit (Option Str)
  direct_url : Str → Except Unit (Option Str)
  strm_write : Str → Str → Except Unit Unit
  download_run : Str → Str → Except Unit Bool

/-- Result of one worker run: the two caches afterwards, the observable
effects (resolver calls made, descriptor writes and download attempts,
cache flushes) and the terminal outcome. -/
structure PState where
  expiration_times : List (Str × Int)
  ignored_titles : List (Str × IgnoreEntry)
  resolver_calls : Nat
  strm_writes : List (Str × Str)
  downloads : List (Str × Str)
  exp_saves : Nat
  ign_saves : Nat
  outcome : WOutcome
deriving DecidableEq

/-- The `Resolving` part of `process_imdb_folder` (scanner.py lines
76-106), entered after the ignore and cached checks fall through. -/
def process_resolve (w : World) (root imdb_id : Str)
    (exp : List (Str × Int)) (ign : List (Str × IgnoreEntry))
    (download : Bool) (strm_path : Str) : PState :=
  match w.page_url with
  | .error _ => ⟨exp, ign, 1, [], [], 0, 0, .failed⟩
  | .ok pu =>
    if pyTruthyStr pu then
      match w.direct_url (pu.getD []) with
      | .error _ => ⟨exp, ign, 2, [], [], 0, 0, .failed⟩
      | .ok du =>
        if pyTruthyStr du then
          let url := du.getD []
          if download then
            match w.download_run root url with
            | .error _ => ⟨exp, ign, 2, [], [(root, url)], 0, 0, .failed⟩
            | .ok ok =>
              ⟨exp, ign, 2, [], [(root, url)], 0, 0,
                if ok then .downloadDone else .downloadFailed⟩
          else
            match w.strm_write root url with
            | .error _ => ⟨exp, ign, 2, [(root, url)], [], 0, 0, .failed⟩
            | .ok _ =>
              match get_expiration_time url with
              | some t =>
                if t ≠ 0 then
                  ⟨dictSet exp strm_path t, ign, 2, [(root, url)], [], 1, 0, .persisted⟩
                else ⟨exp, ign, 2, [(root, url)], [], 0, 0, .persisted⟩
              | none => ⟨exp, ign, 2, [(root, url)], [], 0, 0, .persisted⟩
        else ⟨exp, ign, 2, [], [], 0, 0, .resolvedNoDirect⟩
    else
      ⟨exp, dictSet ign imdb_id ⟨root, w.now, lit "No trailer available"⟩,
        1, [], [], 0, 1, .markedIgnored⟩

/-- `process_imdb_folder` (scanner.py lines 34-108): ignore check, then the
mode-specific cached check, then the resolving phase; the whole body sits
inside `try/except`, so the function always returns (the embedding is
total) and `failed` marks a caught exception. -/
def process_imdb_folder (w : World) (vf : Str) (root imdb_id : Str)
    (exp : List (Str × Int)) (ign : List (Str × IgnoreEntry))
    (download : Bool) : PState :=
  if (dictGet ign imdb_id).isSome then
    ⟨exp, ign, 0, [], [], 0, 0, .ignoredSkip⟩
  else
    let strm_path := pyJoin (pyJoin root (lit "backdrops")) vf
    if download then
      if w.pathExists (pyJoin root (lit "trailer.mp4")) then
        ⟨exp, ign, 0, [], [], 0, 0, .validCached⟩
      else process_resolve w root imdb_id exp ign true strm_path
    else
      match dictGet exp strm_path with
      | some t =>
        if t ≠ 0 ∧ (w.now : Int) < t then
          ⟨exp, ign, 0, [], [], 0, 0, .validCached⟩
        else process_resolve w root imdb_id exp ign false strm_path
      | none => process_resolve w root imdb_id exp ign false strm_path

/-- Iterated cycles of the same candidate: each run feeds its caches to
the next run, accumulating the number of resolver calls made. -/
def run_cycles (w : World) (vf root imdb_id : Str) (download : Bool) :
    Nat → List (Str × Int) → List (Str × IgnoreEntry) →
      List (Str × Int) × List (Str × IgnoreEntry) × Nat
  | 0, exp, ign => (exp, ign, 0)
  | n + 1, exp, ign =>
    let st := process_imdb_folder w vf root imdb_id exp ign download
    match run_cycles w vf root imdb_id download n st.expiration_times st.ignored_titles with
    | (e2, i2, calls) => (e2, i2, st.resolver_calls + calls)

/-! ### Filesystem oracle and walk entries -/

/-- External collaborators consulted during classification: the sidecar
NFO reader (`get_imdb_from_nfo`), `os.path.exists` and `os.listdir`
(the latter may raise, modelled by `Except`). -/
structure FS where
  nfo : Str → Option Str
  pathExists : Str → Bool
  listdir : Str → Except Unit (List Str)

/-- One `(root, dirs, files)` triple yielded by `os.walk` (the `dirs`
component is never read by the code under study). -/
structure WalkEntry where
  root : Str
  files : List Str

/-! ### Candidate collection phase of `scan_and_refresh_trailers` -/

/-- The `check_files` computation of the video-count filter: `os.listdir`
of the candidate folder when it exists, falling back to the walk's
`files` on a listing error or a missing folder. -/
def check_files_for (fs : FS) (search_root : Str) (files : List Str) : List Str :=
  if fs.pathExists search_root then
    match fs.listdir search_root with
    | .ok l => l
    | .error _ => files
  else files

/-- The body of the walk loop in `scan_and_refresh_trailers` (scanner.py
lines 143-226) for a single walked directory: given the
`processed_series` set, returns its new value and the candidate
appended to `imdb_folders`, if any. -/
def classify_entry (fs : FS) (use_nfo : Bool) (processed : List Str)
    (e : WalkEntry) : List Str × Option (Str × Str) :=
  let stage : Option Str × Str × List Str :=
    if use_nfo then
      let folder_name := pyLower (basename e.root)
      if isSeasonFolder folder_name then
        let parent := dirname e.root
        if processed.contains parent then (none, e.root, processed)
        else
          match fs.nfo parent with
          | some id =>
            if pyTruthyStr (some id) then (some id, parent, parent :: processed)
            else (some id, e.root, processed)
          | none => (none, e.root, processed)
      else (fs.nfo e.root, e.root, processed)
    else
      match firstImdb e.root with
      | some id =>
        if (imdbMarker id).isSuffixOf (rstripSlash e.root) then
          (some id, e.root, processed)
        else (none, e.root, processed)
      | none => (none, e.root, processed)
  match stage with
  | (idOpt, search_root, processed2) =>
    if pyTruthyStr idOpt then
      let check_files := check_files_for fs search_root e.files
      if countVideos check_files > 1 then (processed2, none)
      else (processed2, some (search_root, idOpt.getD []))
    else (processed2, none)

/-- `if limit and len(imdb_folders) >= limit` — Python truthiness makes a
limit of `0` (or `None`) never trigger. -/
def limitReached (limit : Option Nat) (n : Nat) : Bool :=
  match limit with
  | some k => k ≠ 0 ∧ n ≥ k
  | none => false

/-- The walk loop over one scan path: folds `classify_entry` over the walk
entries, breaking out of this walk once the limit is reached. -/
def collect_walk (fs : FS) (use_nfo : Bool) (limit : Option Nat) :
    List WalkEntry → List Str → List (Str × Str) → List Str × List (Str × Str)
  | [], processed, acc => (processed, acc)
  | e :: rest, processed, acc =>
    match classify_entry fs use_nfo processed e with
    | (processed2, none) => collect_walk fs use_nfo limit rest processed2 acc
    | (processed2, some c) =>
      let acc2 := acc ++ [c]
      if limitReached limit acc2.length then (processed2, acc2)
      else collect_walk fs use_nfo limit rest processed2 acc2

/-- The candidate-collection phase of `scan_and_refresh_trailers`: the walk
of every scan path in order, sharing `processed_series` and the
accumulated `imdb_folders` list (the `break` only leaves the inner
walk, not the loop over scan paths). -/
def scan_collect (fs : FS) (use_nfo : Bool) (limit : Option Nat)
    (walks : List (List WalkEntry)) : List (Str × Str) :=
  (walks.foldl
    (fun st w => collect_walk fs use_nfo limit w st.1 st.2)
    (([] : List Str), ([] : List (Str × Str)))).2

/-- The per-entry candidate of DirectoryPattern mode, as a standalone
function (the pattern branch never consults `processed_series`). -/
def pattern_cand (fs : FS) (e : WalkEntry) : Option (Str × Str) :=
  match firstImdb e.root with
  | some id =>
    if (imdbMarker id).isSuffixOf (rstripSlash e.root) then
      if countVideos (check_files_for fs e.root e.files) > 1 then none
      else some (e.root, id)
    else none
  | none => none

lemma imdbTail_ne_nil {rest id : Str} (h : imdbTail rest = some id) : id ≠ [] := by
  unfold imdbTail at h
  split at h
  · exact absurd h (by simp)
  · split at h
    · cases h; simp [lit]
    · exact absurd h (by simp)

lemma imdbAt_ne_nil {s id : Str} (h : imdbAt s = some id) : id ≠ [] := by
  unfold imdbAt at h
  split at h
  · exact imdbTail_ne_nil h
  · exact absurd h (by simp)

lemma firstImdb_ne_nil : ∀ {s id : Str}, firstImdb s = some id → id ≠ [] := by
  intro s
  induction s with
  | nil => intro id h; simp [firstImdb] at h
  | cons c rest ih =>
    intro id h
    unfold firstImdb at h
    cases ha : imdbAt (c :: rest) with
    | some j => rw [ha] at h; cases h; exact imdbAt_ne_nil ha
    | none => rw [ha] at h; exact ih h

/-- In DirectoryPattern mode the loop body neither reads nor writes
`processed_series`, and its emitted candidate is `pattern_cand`. -/
lemma classify_entry_pattern (fs : FS) (processed : List Str) (e : WalkEntry) :
    classify_entry fs false processed e = (processed, pattern_cand fs e) := by
  cases h : firstImdb e.root with
  | none => simp [classify_entry, pattern_cand, h, pyTruthyStr]
  | some id =>
    have hne : pyTruthyStr (some id) = true := by
      simp [pyTruthyStr, List.isEmpty_iff]
      exact firstImdb_ne_nil h
    by_cases hs : (imdbMarker id).isSuffixOf (rstripSlash e.root)
    · by_cases hc : countVideos (check_files_for fs e.root e.files) > 1
      · simp [classify_entry, pattern_cand, h, hs, hne, hc]
      · simp [classify_entry, pattern_cand, h, hs, hne, hc]
    · simp [classify_entry, pattern_cand, h, hs, pyTruthyStr]

/-- Unfolding equation of the walk loop for one entry. -/
lemma collect_walk_cons (fs : FS) (m : Bool) (limit : Option Nat)
    (e : WalkEntry) (rest : List WalkEntry) (proc : List Str)
    (acc : List (Str × Str)) :
    collect_walk fs m limit (e :: rest) proc acc =
      match classify_entry fs m proc e with
      | (proc2, none) => collect_walk fs m limit rest proc2 acc
      | (proc2, some c) =>
        if limitReached limit (acc ++ [c]).length then (proc2, acc ++ [c])
        else collect_walk fs m limit rest proc2 (acc ++ [c]) := rfl

/-- With no limit, the accumulator only prefixes the collected list. -/
lemma collect_walk_none_acc (fs : FS) (m : Bool) :
    ∀ (w : List WalkEntry) (proc : List Str) (acc : List (Str × Str)),
      collect_walk fs m none w proc acc =
        ((collect_walk fs m none w proc []).1,
          acc ++ (collect_walk fs m none w proc []).2) := by
  intro w
  induction w with
  | nil => intro proc acc; simp [collect_walk]
  | cons e rest ih =>
    intro proc acc
    cases hc : classify_entry fs m proc e with
    | mk proc2 cand =>
      cases cand with
      | none =>
        simp only [collect_walk_cons, hc]
        rw [ih proc2 acc]
      | some c =>
        simp only [collect_walk_cons, hc, limitReached, Bool.false_eq_true, if_false]
        rw [ih proc2 (acc ++ [c]), ih proc2 ([] ++ [c])]
        simp

/-- With a nonzero limit, one walk collects the accumulator followed by a
prefix of the unlimited collection: the first `k - acc.length` items
while under the limit, and one further item once at or above it. -/
lemma collect_walk_some_take (fs : FS) (m : Bool) (k : Nat) (hk : k ≠ 0) :
    ∀ (w : List WalkEntry) (proc : List Str) (acc : List (Str × Str)),
      (collect_walk fs m (some k) w proc acc).2 =
        acc ++ ((collect_walk fs m none w proc []).2).take (max 1 (k - acc.length)) := by
  intro w
  induction w with
  | nil => intro proc acc; simp [collect_walk]
  | cons e rest ih =>
    intro proc acc
    cases hc : classify_entry fs m proc e with
    | mk proc2 cand =>
      cases cand with
      | none =>
        simp only [collect_walk_cons, hc]
        exact ih proc2 acc
      | some c =>
        simp only [collect_walk_cons, hc]
        have hnone : limitReached none ([] ++ [c] : List (Str × Str)).length = false := rfl
        rw [hnone]
        simp only [Bool.false_eq_true, if_false]
        rw [collect_walk_none_acc fs m rest proc2 ([] ++ [c])]
        by_cases hge : k ≤ acc.length + 1
        · have hlim : limitReached (some k) (acc ++ [c]).length = true := by
            simp [limitReached, hk, List.length_append]
            omega
          rw [hlim]
          simp only [if_true]
          have hmax : max 1 (k - acc.length) = 1 := by omega
          rw [hmax]
          simp
        · have hlim : limitReached (some k) (acc ++ [c]).length = false := by
            simp [limitReached, List.length_append]
            omega
          rw [hlim]
          simp only [Bool.false_eq_true, if_false]
          rw [ih proc2 (acc ++ [c])]
          have h1 : max 1 (k - (acc ++ [c]).length) = k - acc.length - 1 := by
            simp only [List.length_append, List.length_cons, List.length_nil]
            omega
          have h2 : max 1 (k - acc.length) = k - acc.length := by omega
          rw [h1, h2]
          obtain ⟨j, hj⟩ : ∃ j, k - acc.length = j + 1 := ⟨k - acc.length - 1, by omega⟩
          rw [hj]
          simp only [List.nil_append, List.take_succ_cons, List.append_assoc,
            List.singleton_append]
          congr 2

/-- One walk under a nonzero limit grows the accumulator to at most
`max k (acc.length + 1)` candidates. -/
lemma collect_walk_some_len (fs : FS) (m : Bool) (k : Nat) (hk : k ≠ 0)
    (w : List WalkEntry) (proc : List Str) (acc : List (Str × Str)) :
    (collect_walk fs m (some k) w proc acc).2.length ≤ max k (acc.length + 1) := by
  rw [collect_walk_some_take fs m k hk w proc acc]
  have := List.length_take_le (max 1 (k - acc.length))
    (collect_walk fs m none w proc []).2
  simp only [List.length_append]
  omega

/-- A limit of `0` is Python-falsy, so the `break` never fires. -/
lemma collect_walk_zero (fs : FS) (m : Bool) :
    ∀ (w : List WalkEntry) (proc : List Str) (acc : List (Str × Str)),
      collect_walk fs m (some 0) w proc acc = collect_walk fs m none w proc acc := by
  intro w
  induction w with
  | nil => intro proc acc; simp [collect_walk]
  | cons e rest ih =>
    intro proc acc
    cases hc : classify_entry fs m proc e with
    | mk proc2 cand =>
      cases cand with
      | none => simp [collect_walk, hc, ih]
      | some c => simp [collect_walk, hc, limitReached, ih]

lemma scan_collect_foldl_len (fs : FS) (m : Bool) (k : Nat) (hk : k ≠ 0) :
    ∀ (ws : List (List WalkEntry)) (st : List Str × List (Str × Str)) (b : Nat),
      st.2.length ≤ b → k ≤ b →
      ((ws.foldl (fun st w => collect_walk fs m (some k) w st.1 st.2) st).2).length
        ≤ b + ws.length := by
  intro ws
  induction ws with
  | nil => intro st b hb _; simpa using hb
  | cons w rest ih =>
    intro st b hb hkb
    have hstep := collect_walk_some_len fs m k hk w st.1 st.2
    have : (collect_walk fs m (some k) w st.1 st.2).2.length ≤ b + 1 := by omega
    have := ih (collect_walk fs m (some k) w st.1 st.2) (b + 1) this (by omega)
    simpa [List.foldl_cons, Nat.add_assoc, Nat.add_comm, Nat.add_left_comm] using this

/-- In DirectoryPattern mode with no limit, one walk collects exactly the
`pattern_cand` of each walked directory, in walk order. -/
lemma collect_walk_pattern (fs : FS) :
    ∀ (w : List WalkEntry) (proc : List Str) (acc : List (Str × Str)),
      collect_walk fs false none w proc acc =
        (proc, acc ++ w.filterMap (pattern_cand fs)) := by
  intro w
  induction w with
  | nil => intro proc acc; simp [collect_walk]
  | cons e rest ih =>
    intro proc acc
    have hc := classify_entry_pattern fs proc e
    cases hp : pattern_cand fs e with
    | none =>
      rw [hp] at hc
      simp [collect_walk, hc, ih, List.filterMap_cons, hp]
    | some c =>
      rw [hp] at hc
      simp only [collect_walk, hc, limitReached, Bool.false_eq_true, if_false]
      simp [ih, List.filterMap_cons, hp]

/-- Claim C6 (amended): in DirectoryPattern mode a walked directory is a
candidate exactly when the *first* marker token found anywhere in its
path (the leftmost `re.search` match) is a suffix of the path after
stripping trailing separators and the video-count filter passes; a
directory whose final segment carries a different marker than an
earlier segment is therefore skipped. The scan-level collection is the
per-directory `pattern_cand` applied in walk order. -/
theorem C6_pattern_final_segment (fs : FS) (processed : List Str)
    (e : WalkEntry) (id : Str) (h : firstImdb e.root = some id) :
    (∀ w, scan_collect fs false none [w] = w.filterMap (pattern_cand fs)) ∧
    ((classify_entry fs false processed e).2 = some (e.root, id) ↔
      ((imdbMarker id).isSuffixOf (rstripSlash e.root) ∧
        countVideos (check_files_for fs e.root e.files) ≤ 1)) := by
  constructor
  · intro w
    simp [scan_collect, collect_walk_pattern fs w]
  · rw [classify_entry_pattern]
    simp only [pattern_cand, h]
    by_cases hs : (imdbMarker id).isSuffixOf (rstripSlash e.root)
    · by_cases hcnt : countVideos (check_files_for fs e.root e.files) > 1
      · simp [hs, hcnt]
      · simp [hs, hcnt]
        omega
    · simp [hs]

/-- Claim C7 (amended): with a nonzero limit `k`, a single-root scan
collects exactly the first `k` candidates in walk order; with several
roots the `break` only leaves the current root's walk, so each later
root may contribute one further candidate, bounding the total by
`k + (roots - 1)`; a limit of `0` is falsy and disables truncation. -/
theorem C7_limit_behaviour (fs : FS) (m : Bool) (k : Nat) (hk : k ≠ 0) :
    (∀ w, scan_collect fs m (some k) [w] = (scan_collect fs m none [w]).take k) ∧
    (∀ ws, (scan_collect fs m (some k) ws).length ≤ k + (ws.length - 1)) ∧
    (∀ ws, scan_collect fs m (some 0) ws = scan_collect fs m none ws) := by
  refine ⟨?_, ?_, ?_⟩
  · intro w
    simp only [scan_collect, List.foldl_cons, List.foldl_nil]
    have := collect_walk_some_take fs m k hk w [] []
    have hmax : max 1 (k - List.length ([] : List (Str × Str))) = k := by
      simp only [List.length_nil, Nat.sub_zero]
      omega
    rw [hmax] at this
    simpa using this
  · intro ws
    cases ws with
    | nil => simp [scan_collect]
    | cons w rest =>
      have h1 : (collect_walk fs m (some k) w [] []).2.length ≤ k := by
        have := collect_walk_some_len fs m k hk w [] []
        simp only [List.length_nil] at this
        omega
      have := scan_collect_foldl_len fs m k hk rest
        (collect_walk fs m (some k) w [] []) k h1 (le_refl k)
      simp only [scan_collect, List.foldl_cons]
      simpa using this
  · intro ws
    have : ∀ (st : List Str × List (Str × Str)),
        ws.foldl (fun st w => collect_walk fs m (some 0) w st.1 st.2) st =
          ws.foldl (fun st w => collect_walk fs m none w st.1 st.2) st := by
      induction ws with
      | nil => intro st; rfl
      | cons w rest ih =>
        intro st
        simp only [List.foldl_cons, collect_walk_zero fs m w st.1 st.2, ih]
    simp [scan_collect, this]

/-! ### `watch_for_new_media` (scanner.py lines 429-477)

The `else:` on line 462 is indented to the `for root, dirs, files in
os.walk(...)` loop, not to `if use_nfo:`; Python therefore parses it as a
`for`/`else` block that runs once, after the walk finishes, with `root`
and `files` still bound to the last walked entry. The embedding mirrors
this: locals that Python may leave unbound (`root`, `files`, `has_media`,
`video_count`) are `Option`-valued, and referencing an unbound one is the
`NameError` modelled by `Except.error`. -/

/-- The function-scoped locals of `watch_for_new_media` that survive
between loop iterations and scan paths. -/
structure WatchVars where
  root : Option Str
  files : Option (List Str)
  has_media : Option Bool
  video_count : Option Nat
deriving DecidableEq

/-- The walk loop body, iterated: binds `root`/`files`, resets
`has_media`, and in NFO mode recomputes `video_count` for folders with
a sidecar id before evaluating `has_media = video_count == 1` (a
`NameError` when `video_count` has never been assigned). -/
def watch_loop (fs : FS) (use_nfo : Bool) :
    List WalkEntry → WatchVars → Except Unit WatchVars
  | [], v => .ok v
  | e :: rest, v =>
    let v1 : WatchVars :=
      { v with root := some e.root, files := some e.files, has_media := some false }
    if use_nfo then
      let v2 :=
        if pyTruthyStr (fs.nfo e.root) then
          { v1 with video_count := some (countVideos e.files) }
        else v1
      match v2.video_count with
      | none => .error ()
      | some vc =>
        watch_loop fs use_nfo rest { v2 with has_media := some (decide (vc = 1)) }
    else watch_loop fs use_nfo rest v1

/-- The `for`/`else` block (scanner.py lines 462-475): a pattern check on
the *last* walked `root`, then the single `current_folders.add`. -/
def watch_else (v : WatchVars) (acc : List Str) :
    Except Unit (WatchVars × List Str) :=
  match v.root with
  | none => .error ()
  | some r =>
    let step : Except Unit WatchVars :=
      match firstImdb r with
      | some id =>
        if (imdbMarker id).isSuffixOf (rstripSlash r) then
          match v.files with
          | none => .error ()
          | some fl =>
            .ok { v with video_count := some (countVideos fl),
                         has_media := some (decide (countVideos fl = 1)) }
        else .ok v
      | none => .ok v
    match step with
    | .error e => .error e
    | .ok v2 =>
      match v2.has_media with
      | none => .error ()
      | some true => .ok (v2, if acc.contains r then acc else acc ++ [r])
      | some false => .ok (v2, acc)

/-- One scan path: a nonexistent path is skipped entirely (`continue`),
otherwise the walk loop runs and then its `for`/`else` block. -/
def watch_one_path (fs : FS) (use_nfo : Bool) (p : Str)
    (entries : List WalkEntry) (st : WatchVars × List Str) :
    Except Unit (WatchVars × List Str) :=
  if fs.pathExists p then
    match watch_loop fs use_nfo entries st.1 with
    | .error e => .error e
    | .ok v2 => watch_else v2 st.2
  else .ok st

/-- The loop of `watch_for_new_media` over scan paths, threading the
function-scoped locals. -/
def watch_paths (fs : FS) (use_nfo : Bool) :
    List (Str × List WalkEntry) → WatchVars × List Str → Except Unit (List Str)
  | [], st => .ok st.2
  | (p, entries) :: rest, st =>
    match watch_one_path fs use_nfo p entries st with
    | .error e => .error e
    | .ok st2 => watch_paths fs use_nfo rest st2

/-- `watch_for_new_media`: the recomputed set of media folders (as the
insertion-ordered list of `current_folders.add` calls), or the
`NameError` the buggy block can raise. -/
def watch_for_new_media (fs : FS) (use_nfo : Bool)
    (paths : List (Str × List WalkEntry)) : Except Unit (List Str) :=
  watch_paths fs use_nfo paths (⟨none, none, none, none⟩, [])

/-! ### Concrete scan scenarios -/

/-- The series folder of the C1 scenario tree. -/
def c1_show : Str := lit "/lib/Show/{imdb-tt1}"

/-- Filesystem of the C1 scenario: a sidecar NFO carrying `tt1` sits in
`Show/{imdb-tt1}`, whose listing holds the NFO and two season folders. -/
def c1_fs : FS where
  nfo p := if p = c1_show then some (lit "tt1") else none
  pathExists p := p = c1_show
  listdir p :=
    .ok (if p = c1_show then [lit "show.nfo", lit "Season 01", lit "Season 02"] else [])

/-- Walk order of the C1 scenario tree
`Show/{imdb-tt1}/Season 01/ep1.mkv`, `Show/{imdb-tt1}/Season 02/ep1.mkv`. -/
def c1_walk : List WalkEntry :=
  [⟨lit "/lib", []⟩, ⟨lit "/lib/Show", []⟩, ⟨c1_show, [lit "show.nfo"]⟩,
   ⟨lit "/lib/Show/{imdb-tt1}/Season 01", [lit "ep1.mkv"]⟩,
   ⟨lit "/lib/Show/{imdb-tt1}/Season 02", [lit "ep1.mkv"]⟩]

/-- Claim C1 (counterexample): on the scenario tree, one run of the
SidecarMetadata classification phase does not produce exactly one
candidate. -/
theorem C1_counterexample :
    ¬ ((scan_collect c1_fs true none [c1_walk]).length = 1) := by decide

/-- Claim C1 (amended): the scenario tree yields exactly two identical
candidates `(Show/{imdb-tt1}, tt1)`: one from the parent directory's own
sidecar check when it is walked directly, and one from the first season
folder; the second season folder is skipped because the parent is
already in `processed_series`, so the season sub-folders alone
contribute at most one candidate. -/
theorem C1_season_collapsing_amended :
    scan_collect c1_fs true none [c1_walk] =
      [(c1_show, lit "tt1"), (c1_show, lit "tt1")] := by decide

/-- The movie folder of the C6 scenario: its final segment carries marker
`tt2` while an earlier segment carries marker `tt1`. -/
def c6_dir : Str := lit "/m/Col {imdb-tt1}/Movie {imdb-tt2}"

/-- Filesystem of the C6 scenario. -/
def c6_fs : FS where
  nfo _ := none
  pathExists _ := true
  listdir p := .ok (if p = c6_dir then [lit "m.mkv"] else [])

/-- Walk of the C6 scenario. -/
def c6_walk : List WalkEntry :=
  [⟨lit "/m", []⟩, ⟨lit "/m/Col {imdb-tt1}", []⟩, ⟨c6_dir, [lit "m.mkv"]⟩]

/-- Claim C6 (counterexample): the directory whose final segment ends in
`{imdb-tt2}` and which contains exactly one video file is *not* emitted
with titleId `tt2`, because `re.search` finds the earlier segment's
marker `tt1` first and the `endswith` guard then rejects the path. -/
theorem C6_counterexample :
    (imdbMarker (lit "tt2")).isSuffixOf (rstripSlash c6_dir) = true ∧
    countVideos (check_files_for c6_fs c6_dir [lit "m.mkv"]) = 1 ∧
    (c6_dir, lit "tt2") ∉ scan_collect c6_fs false none [c6_walk] := by decide

/-- Witness instantiating `C6_pattern_final_segment` on the scenario
directory, whose leftmost marker match is `tt1`. -/
theorem C6_pattern_final_segment_witness :
    firstImdb c6_dir = some (lit "tt1") ∧
    ((∀ w, scan_collect c6_fs false none [w] = w.filterMap (pattern_cand c6_fs)) ∧
      ((classify_entry c6_fs false [] ⟨c6_dir, [lit "m.mkv"]⟩).2 =
          some (c6_dir, lit "tt1") ↔
        ((imdbMarker (lit "tt1")).isSuffixOf (rstripSlash c6_dir) ∧
          countVideos (check_files_for c6_fs c6_dir [lit "m.mkv"]) ≤ 1))) :=
  ⟨by decide, C6_pattern_final_segment c6_fs [] ⟨c6_dir, [lit "m.mkv"]⟩
    (lit "tt1") (by decide)⟩

/-- Filesystem of the C7 scenario (pattern mode, nothing listable). -/
def c7_fs : FS where
  nfo _ := none
  pathExists _ := false
  listdir _ := .error ()

/-- First scan root of the C7 scenario, holding two candidates. -/
def c7_walkA : List WalkEntry :=
  [⟨lit "/a", []⟩, ⟨lit "/a/M1 {imdb-tt11}", [lit "a.mp4"]⟩,
   ⟨lit "/a/M2 {imdb-tt12}", [lit "b.mp4"]⟩]

/-- Second scan root of the C7 scenario, holding one candidate. -/
def c7_walkB : List WalkEntry :=
  [⟨lit "/b", []⟩, ⟨lit "/b/M3 {imdb-tt13}", [lit "c.mp4"]⟩]

/-- Claim C7 (counterexample): with two scan roots and `limit = 1` the
collection gathers two candidates, because the `break` on reaching the
limit only exits the current root's walk. -/
theorem C7_counterexample :
    ¬ ((scan_collect c7_fs false (some 1) [c7_walkA, c7_walkB]).length ≤ 1) := by
  decide

/-- Witness instantiating `C7_limit_behaviour` at `k = 1` on the scenario
filesystem. -/
theorem C7_limit_behaviour_witness :
    (1 : Nat) ≠ 0 ∧
    ((∀ w, scan_collect c7_fs false (some 1) [w] =
        (scan_collect c7_fs false none [w]).take 1) ∧
      (∀ ws, (scan_collect c7_fs false (some 1) ws).length ≤ 1 + (ws.length - 1)) ∧
      (∀ ws, scan_collect c7_fs false (some 0) ws = scan_collect c7_fs false none ws)) :=
  ⟨by decide, C7_limit_behaviour c7_fs false 1 (by decide)⟩

deriving instance DecidableEq for Except

/-- Filesystem of the C5 scenario (pattern mode). -/
def c5_fs : FS where
  nfo _ := none
  pathExists p := p = lit "/m"
  listdir _ := .ok []

/-- Walk of the C5 scenario: two qualifying media folders, each with
exactly one video file and a final-segment marker. -/
def c5_entries : List WalkEntry :=
  [⟨lit "/m", []⟩, ⟨lit "/m/A {imdb-tt1}", [lit "a.mp4"]⟩,
   ⟨lit "/m/B {imdb-tt2}", [lit "b.mp4"]⟩]

/-- Claim C5 (code bug): `/m/A {imdb-tt1}` qualifies under the section-4.1
criterion (final-segment marker, exactly one recognized video file), yet
`watch_for_new_media` returns only the *last* walked folder, because the
pattern check sits in a `for`/`else` block that runs once after the
walk. -/
theorem C5_watch_misses_folders :
    (imdbMarker (lit "tt1")).isSuffixOf (rstripSlash (lit "/m/A {imdb-tt1}")) = true ∧
    countVideos [lit "a.mp4"] = 1 ∧
    watch_for_new_media c5_fs false [(lit "/m", c5_entries)] =
      .ok [lit "/m/B {imdb-tt2}"] := by decide

/-! ### Worker theorems -/

lemma dictGet_dictSet_self {α : Type} (d : List (Str × α)) (k : Str) (v : α) :
    dictGet (dictSet d k v) k = some v := by
  induction d with
  | nil => simp [dictGet, dictSet]
  | cons p d ih =>
    by_cases hp : p.1 = k
    · simp [dictGet, dictSet, hp]
    · simp [dictGet, dictSet, hp, ih]

/-- A worker run for an ignored title is the skip state. -/
lemma process_ignored (w : World) (vf root imdb_id : Str)
    (exp : List (Str × Int)) (ign : List (Str × IgnoreEntry)) (download : Bool)
    (h : (dictGet ign imdb_id).isSome = true) :
    process_imdb_folder w vf root imdb_id exp ign download =
      ⟨exp, ign, 0, [], [], 0, 0, .ignoredSkip⟩ := by
  simp [process_imdb_folder, h]

/-- Claim C3: a titleId present in IgnoreList is skipped with no resolver
call and no side effect, on this cycle and on every later cycle, the
caches being returned unchanged throughout. -/
theorem C3_ignore_suppression (w : World) (vf root imdb_id : Str)
    (exp : List (Str × Int)) (ign : List (Str × IgnoreEntry)) (download : Bool)
    (h : (dictGet ign imdb_id).isSome = true) :
    process_imdb_folder w vf root imdb_id exp ign download =
      ⟨exp, ign, 0, [], [], 0, 0, .ignoredSkip⟩ ∧
    ∀ n, run_cycles w vf root imdb_id download n exp ign = (exp, ign, 0) := by
  have h1 := process_ignored w vf root imdb_id exp ign download h
  refine ⟨h1, ?_⟩
  intro n
  induction n with
  | zero => rfl
  | succ n ih => simp [run_cycles, h1, ih]

/-- A world whose collaborators all raise, for witnesses that must never
reach them. -/
def deadWorld : World where
  now := 0
  pathExists _ := false
  page_url := .error ()
  direct_url _ := .error ()
  strm_write _ _ := .error ()
  download_run _ _ := .error ()

/-- An ignore list holding `tt9`. -/
def c3_ign : List (Str × IgnoreEntry) :=
  [(lit "tt9", ⟨lit "/m/X {imdb-tt9}", 5, lit "No trailer available"⟩)]

/-- Witness instantiating `C3_ignore_suppression` on a concrete ignored
title. -/
theorem C3_ignore_suppression_witness :
    (dictGet c3_ign (lit "tt9")).isSome = true ∧
    (process_imdb_folder deadWorld (lit "video.strm") (lit "/m/X {imdb-tt9}")
        (lit "tt9") [] c3_ign false =
      ⟨[], c3_ign, 0, [], [], 0, 0, .ignoredSkip⟩ ∧
    ∀ n, run_cycles deadWorld (lit "video.strm") (lit "/m/X {imdb-tt9}")
        (lit "tt9") false n [] c3_ign = ([], c3_ign, 0)) :=
  ⟨by decide, C3_ignore_suppression deadWorld (lit "video.strm")
    (lit "/m/X {imdb-tt9}") (lit "tt9") [] c3_ign false (by decide)⟩

/-- Claim C4: in link-descriptor mode, a cached entry for the asset path
that has not yet expired makes the worker terminate in `ValidCached`
with no resolver call and no mutation of either cache. -/
theorem C4_valid_cached (w : World) (vf root imdb_id : Str)
    (exp : List (Str × Int)) (ign : List (Str × IgnoreEntry)) (t : Int)
    (hig : dictGet ign imdb_id = none)
    (hc : dictGet exp (pyJoin (pyJoin root (lit "backdrops")) vf) = some t)
    (hnow : (w.now : Int) < t) :
    process_imdb_folder w vf root imdb_id exp ign false =
      ⟨exp, ign, 0, [], [], 0, 0, .validCached⟩ := by
  have ht : t ≠ 0 := by omega
  simp [process_imdb_folder, hig, hc, ht, hnow]

/-- A non-expired cache for the C4 witness. -/
def c4_exp : List (Str × Int) :=
  [(pyJoin (pyJoin (lit "/m/A {imdb-tt4}") (lit "backdrops")) (lit "video.strm"), 100)]

/-- Witness instantiating `C4_valid_cached` at `now = 10 < 100`. -/
theorem C4_valid_cached_witness :
    (dictGet ([] : List (Str × IgnoreEntry)) (lit "tt4") = none ∧
      dictGet c4_exp
        (pyJoin (pyJoin (lit "/m/A {imdb-tt4}") (lit "backdrops")) (lit "video.strm")) =
        some 100 ∧
      ((10 : Nat) : Int) < 100) ∧
    process_imdb_folder { deadWorld with now := 10 } (lit "video.strm")
        (lit "/m/A {imdb-tt4}") (lit "tt4") c4_exp [] false =
      ⟨c4_exp, [], 0, [], [], 0, 0, .validCached⟩ :=
  ⟨⟨by decide, by decide, by decide⟩,
    C4_valid_cached { deadWorld with now := 10 } (lit "video.strm")
      (lit "/m/A {imdb-tt4}") (lit "tt4") c4_exp [] 100 (by decide) (by decide)
      (by decide)⟩

/-- On a caught exception, the resolving phase leaves both caches as it
found them. -/
lemma process_resolve_failed (w : World) (root imdb_id : Str)
    (exp : List (Str × Int)) (ign : List (Str × IgnoreEntry))
    (download : Bool) (strm_path : Str)
    (h : (process_resolve w root imdb_id exp ign download strm_path).outcome = .failed) :
    (process_resolve w root imdb_id exp ign download strm_path).expiration_times = exp ∧
    (process_resolve w root imdb_id exp ign download strm_path).ignored_titles = ign := by
  cases hp : w.page_url with
  | error e => simp [process_resolve, hp]
  | ok pu =>
    by_cases hpu : pyTruthyStr pu = true
    · cases hd : w.direct_url (pu.getD []) with
      | error e => simp [process_resolve, hp, hpu, hd]
      | ok du =>
        by_cases hdu : pyTruthyStr du = true
        · cases download with
          | true =>
            cases hr : w.download_run root (du.getD []) with
            | error e => simp [process_resolve, hp, hpu, hd, hdu, hr]
            | ok b =>
              cases b <;> simp [process_resolve, hp, hpu, hd, hdu, hr] at h
          | false =>
            cases hw : w.strm_write root (du.getD []) with
            | error e => simp [process_resolve, hp, hpu, hd, hdu, hw]
            | ok u =>
              cases hg : get_expiration_time (du.getD []) with
              | some t =>
                by_cases htz : t = 0
                · simp [process_resolve, hp, hpu, hd, hdu, hw, hg, htz] at h
                · simp [process_resolve, hp, hpu, hd, hdu, hw, hg, htz] at h
              | none => simp [process_resolve, hp, hpu, hd, hdu, hw, hg] at h
        · simp [process_resolve, hp, hpu, hd, hdu] at h
    · simp [process_resolve, hp, hpu] at h

/-- The worker ends in one of the three pre-resolve states, or defers to
the resolving phase. -/
lemma process_cases (w : World) (vf root imdb_id : Str)
    (exp : List (Str × Int)) (ign : List (Str × IgnoreEntry)) (download : Bool) :
    process_imdb_folder w vf root imdb_id exp ign download =
        ⟨exp, ign, 0, [], [], 0, 0, .ignoredSkip⟩ ∨
    process_imdb_folder w vf root imdb_id exp ign download =
        ⟨exp, ign, 0, [], [], 0, 0, .validCached⟩ ∨
    process_imdb_folder w vf root imdb_id exp ign download =
        process_resolve w root imdb_id exp ign download
          (pyJoin (pyJoin root (lit "backdrops")) vf) := by
  by_cases hig : (dictGet ign imdb_id).isSome = true
  · left
    simp [process_imdb_folder, hig]
  · cases download with
    | true =>
      by_cases hex : w.pathExists (pyJoin root (lit "trailer.mp4")) = true
      · right; left
        simp [process_imdb_folder, hig, hex]
      · right; right
        simp [process_imdb_folder, hig, hex]
    | false =>
      cases hc : dictGet exp (pyJoin (pyJoin root (lit "backdrops")) vf) with
      | some t =>
        by_cases hv : t ≠ 0 ∧ (w.now : Int) < t
        · right; left
          simp [process_imdb_folder, hig, hc, hv]
        · right; right
          simp [process_imdb_folder, hig, hc, hv]
      | none =>
        right; right
        simp [process_imdb_folder, hig, hc]

/-- Claim C8: the worker's `try/except` catches any exception raised in
the resolving phase (the embedding is total, so the worker always
returns normally); whenever the run ends at `Failed`, both caches are
exactly the input caches, leaving the candidate eligible for retry. -/
theorem C8_exception_containment (w : World) (vf root imdb_id : Str)
    (exp : List (Str × Int)) (ign : List (Str × IgnoreEntry)) (download : Bool)
    (h : (process_imdb_folder w vf root imdb_id exp ign download).outcome = .failed) :
    (process_imdb_folder w vf root imdb_id exp ign download).expiration_times = exp ∧
    (process_imdb_folder w vf root imdb_id exp ign download).ignored_titles = ign := by
  rcases process_cases w vf root imdb_id exp ign download with hcase | hcase | hcase
  · rw [hcase] at h
    exact absurd h (by simp)
  · rw [hcase] at h
    exact absurd h (by simp)
  · rw [hcase] at h ⊢
    exact process_resolve_failed w root imdb_id exp ign download _ h

/-- A world whose first resolver call raises, for the C8 witness. -/
def c8_w : World :=
  { deadWorld with pathExists := fun _ => false, page_url := .error () }

/-- Witness instantiating `C8_exception_containment` on a world whose
resolver raises. -/
theorem C8_exception_containment_witness :
    (process_imdb_folder c8_w (lit "video.strm") (lit "/m/B {imdb-tt8}")
        (lit "tt8") [] [] false).outcome = .failed ∧
    ((process_imdb_folder c8_w (lit "video.strm") (lit "/m/B {imdb-tt8}")
        (lit "tt8") [] [] false).expiration_times = [] ∧
      (process_imdb_folder c8_w (lit "video.strm") (lit "/m/B {imdb-tt8}")
        (lit "tt8") [] [] false).ignored_titles = []) :=
  ⟨by decide, C8_exception_containment c8_w (lit "video.strm")
    (lit "/m/B {imdb-tt8}") (lit "tt8") [] [] false (by decide)⟩

/-- Claim C2 (amended): once the worker reaches the resolving phase and a
descriptor is written, a numeric `Expires` value `T ≠ 0` in the resolved
URL's query is written to the expiration cache exactly; an absent or
non-numeric `Expires` writes nothing — and so does `T = 0`, which is
Python-falsy and therefore treated like an absent expiry. -/
theorem C2_expiry_write (w : World) (vf root imdb_id p u : Str)
    (exp : List (Str × Int)) (ign : List (Str × IgnoreEntry))
    (hig : dictGet ign imdb_id = none)
    (hmiss : dictGet exp (pyJoin (pyJoin root (lit "backdrops")) vf) = none)
    (hp : w.page_url = .ok (some p)) (hpne : p ≠ [])
    (hd : w.direct_url p = .ok (some u)) (hune : u ≠ [])
    (hw : w.strm_write root u = .ok ()) :
    (∀ v vs T, parse_qs_get (extract_query u) (lit "Expires") = v :: vs →
        pyInt v = some T → T ≠ 0 →
        (process_imdb_folder w vf root imdb_id exp ign false).expiration_times =
          dictSet exp (pyJoin (pyJoin root (lit "backdrops")) vf) T ∧
        dictGet (process_imdb_folder w vf root imdb_id exp ign false).expiration_times
          (pyJoin (pyJoin root (lit "backdrops")) vf) = some T) ∧
    (parse_qs_get (extract_query u) (lit "Expires") = [] →
        (process_imdb_folder w vf root imdb_id exp ign false).expiration_times = exp) ∧
    (∀ v vs, parse_qs_get (extract_query u) (lit "Expires") = v :: vs →
        pyInt v = none →
        (process_imdb_folder w vf root imdb_id exp ign false).expiration_times = exp) := by
  have hig2 : (dictGet ign imdb_id).isSome = false := by simp [hig]
  have hred : process_imdb_folder w vf root imdb_id exp ign false =
      process_resolve w root imdb_id exp ign false
        (pyJoin (pyJoin root (lit "backdrops")) vf) := by
    simp [process_imdb_folder, hig2, hmiss]
  have hpu : pyTruthyStr (some p) = true := by
    simpa [pyTruthyStr, List.isEmpty_iff] using hpne
  have hdu : pyTruthyStr (some u) = true := by
    simpa [pyTruthyStr, List.isEmpty_iff] using hune
  refine ⟨?_, ?_, ?_⟩
  · intro v vs T hq hv hT
    rw [hred]
    constructor
    · simp [process_resolve, hp, hpu, hd, hdu, hw, get_expiration_time, hq, hv, hT]
    · simp [process_resolve, hp, hpu, hd, hdu, hw, get_expiration_time, hq, hv, hT,
        dictGet_dictSet_self]
  · intro hq
    rw [hred]
    simp [process_resolve, hp, hpu, hd, hdu, hw, get_expiration_time, hq]
  · intro v vs hq hv
    rw [hred]
    simp [process_resolve, hp, hpu, hd, hdu, hw, get_expiration_time, hq, hv]

/-- Resolved URL of the C2 counterexample, carrying `Expires=0`. -/
def c2_url : Str := lit "http://cdn/v.mp4?Expires=0"

/-- World of the C2 counterexample. -/
def c2_w : World where
  now := 100
  pathExists _ := false
  page_url := .ok (some (lit "http://imdb/page"))
  direct_url _ := .ok (some c2_url)
  strm_write _ _ := .ok ()
  download_run _ _ := .ok true

/-- Claim C2 (counterexample): the resolved URL's query carries `Expires`
with numeric value `0`, yet after processing no expiration entry is
written (the cache stays empty), because `if new_expiration:` is false
for `0`. -/
theorem C2_counterexample :
    get_expiration_time c2_url = some 0 ∧
    (process_imdb_folder c2_w (lit "video.strm") (lit "/m/C {imdb-tt2}")
        (lit "tt2") [] [] false).outcome = .persisted ∧
    (process_imdb_folder c2_w (lit "video.strm") (lit "/m/C {imdb-tt2}")
        (lit "tt2") [] [] false).expiration_times = [] := by decide

/-- Resolved URL of the C2 witness, carrying `Expires=777`. -/
def c2b_url : Str := lit "http://cdn/v.mp4?Expires=777"

/-- World of the C2 witness. -/
def c2b_w : World where
  now := 100
  pathExists _ := false
  page_url := .ok (some (lit "http://imdb/page"))
  direct_url _ := .ok (some c2b_url)
  strm_write _ _ := .ok ()
  download_run _ _ := .ok true

/-- Witness instantiating `C2_expiry_write` on a URL with `Expires=777`. -/
theorem C2_expiry_write_witness :
    parse_qs_get (extract_query c2b_url) (lit "Expires") = [lit "777"] ∧
    pyInt (lit "777") = some 777 ∧
    (process_imdb_folder c2b_w (lit "video.strm") (lit "/m/C2 {imdb-tt2}")
        (lit "tt2") [] [] false).expiration_times =
      dictSet [] (pyJoin (pyJoin (lit "/m/C2 {imdb-tt2}") (lit "backdrops"))
        (lit "video.strm")) 777 ∧
    dictGet (process_imdb_folder c2b_w (lit "video.strm") (lit "/m/C2 {imdb-tt2}")
        (lit "tt2") [] [] false).expiration_times
      (pyJoin (pyJoin (lit "/m/C2 {imdb-tt2}") (lit "backdrops"))
        (lit "video.strm")) = some 777 :=
  ⟨by decide, by decide,
    ((C2_expiry_write c2b_w (lit "video.strm") (lit "/m/C2 {imdb-tt2}") (lit "tt2")
        (lit "http://imdb/page") c2b_url [] [] (by decide) (by decide) rfl (by decide)
        rfl (by decide) rfl).1 (lit "777") [] 777 (by decide) (by decide)
      (by decide)).1,
    ((C2_expiry_write c2b_w (lit "video.strm") (lit "/m/C2 {imdb-tt2}") (lit "tt2")
        (lit "http://imdb/page") c2b_url [] [] (by decide) (by decide) rfl (by decide)
        rfl (by decide) rfl).1 (lit "777") [] 777 (by decide) (by decide)
      (by decide)).2⟩

/-! ### The bounded worker pool (scanner.py lines 241-280)

`scan_and_refresh_trailers` fans the collected candidates out as asyncio
tasks, each wrapped in `async with semaphore` for
`semaphore = asyncio.Semaphore(worker_count)`. The scheduler is modelled
as a transition system over the list of per-candidate task statuses: a
pending task may start only while fewer than `N` tasks hold the
semaphore, and a running task may finish; the event loop picks any
enabled transition. -/

/-- Status of one submitted candidate's task. -/
inductive TaskStatus
  | pending
  | running
  | done
deriving DecidableEq

/-- Number of tasks in a given status. -/
def statusCount (x : TaskStatus) (s : List TaskStatus) : Nat :=
  s.countP (fun t => t = x)

/-- One scheduler action under `asyncio.Semaphore N`: entering the
`async with` block (only while fewer than `N` workers hold the
semaphore) or completing `process_imdb_folder` and releasing it. -/
inductive pool_step (N : Nat) : List TaskStatus → List TaskStatus → Prop
  | start (l r : List TaskStatus) :
      statusCount .running (l ++ .pending :: r) < N →
      pool_step N (l ++ .pending :: r) (l ++ .running :: r)
  | finish (l r : List TaskStatus) :
      pool_step N (l ++ .running :: r) (l ++ .done :: r)

/-- All `M` submitted tasks start pending. -/
def pool_init (M : Nat) : List TaskStatus := List.replicate M .pending

/-- States the scheduler can be in after any number of actions. -/
def poolReachable (N M : Nat) (s : List TaskStatus) : Prop :=
  Relation.ReflTransGen (pool_step N) (pool_init M) s

/-- Termination measure of the pool. -/
def poolMeasure (s : List TaskStatus) : Nat :=
  (s.map (fun t => match t with
    | .pending => 2
    | .running => 1
    | .done => 0)).sum

lemma pool_step_measure {N : Nat} {s t : List TaskStatus}
    (h : pool_step N s t) : poolMeasure t < poolMeasure s := by
  cases h with
  | start l r _ => simp [poolMeasure, List.map_append, List.sum_append]
  | finish l r => simp [poolMeasure, List.map_append, List.sum_append]

lemma pool_step_running_le {N : Nat} {s t : List TaskStatus}
    (hs : statusCount .running s ≤ N) (h : pool_step N s t) :
    statusCount .running t ≤ N := by
  cases h with
  | start l r hlt =>
    simp [statusCount, List.countP_append, List.countP_cons] at hlt ⊢
    omega
  | finish l r =>
    simp [statusCount, List.countP_append, List.countP_cons] at hs ⊢
    omega

lemma pool_init_running (M : Nat) :
    statusCount .running (pool_init M) = 0 := by
  simp [statusCount, pool_init, List.countP_eq_zero, List.mem_replicate]

lemma pool_step_length {N : Nat} {s t : List TaskStatus}
    (h : pool_step N s t) : t.length = s.length := by
  cases h <;> simp

lemma pool_reachable_length {N M : Nat} {s : List TaskStatus}
    (h : poolReachable N M s) : s.length = M := by
  induction h with
  | refl => simp [pool_init]
  | tail _ hstep ih => rw [pool_step_length hstep, ih]

/-- Claim C9: with pool size `N ≥ 1` and `M` submitted candidates, (a) no
reachable scheduler state has more than `N` workers running, (b) no
execution runs forever, and (c) any reachable state from which no
action is enabled has all `M` tasks done — so every maximal execution
ends with every candidate attempted while never exceeding `N`
concurrent workers. -/
theorem C9_concurrency_bound (N M : Nat) (hN : 1 ≤ N) :
    (∀ s, poolReachable N M s → statusCount .running s ≤ N) ∧
    (∀ f : Nat → List TaskStatus, f 0 = pool_init M →
        (∀ n, pool_step N (f n) (f (n + 1))) → False) ∧
    (∀ s, poolReachable N M s → (∀ t, ¬ pool_step N s t) →
        s = List.replicate M TaskStatus.done) := by
  refine ⟨?_, ?_, ?_⟩
  · intro s hs
    induction hs with
    | refl => simp [pool_init_running]
    | tail _ hstep ih => exact pool_step_running_le ih hstep
  · intro f _ hstep
    have hdec : ∀ n, poolMeasure (f (n + 1)) < poolMeasure (f n) :=
      fun n => pool_step_measure (hstep n)
    have hle : ∀ n, poolMeasure (f n) + n ≤ poolMeasure (f 0) := by
      intro n
      induction n with
      | zero => simp
      | succ n ih =>
        have := hdec n
        omega
    have := hle (poolMeasure (f 0) + 1)
    omega
  · intro s hs hstuck
    have hnr : ∀ x ∈ s, x ≠ TaskStatus.running := by
      intro x hx hxr
      subst hxr
      obtain ⟨l, r, rfl⟩ := List.append_of_mem hx
      exact hstuck _ (pool_step.finish l r)
    have hzero : statusCount .running s = 0 := by
      simp only [statusCount, List.countP_eq_zero, decide_eq_true_eq]
      exact hnr
    have hnp : ∀ x ∈ s, x ≠ TaskStatus.pending := by
      intro x hx hxp
      subst hxp
      obtain ⟨l, r, rfl⟩ := List.append_of_mem hx
      refine hstuck _ (pool_step.start l r ?_)
      rw [hzero]
      omega
    have hall : ∀ x ∈ s, x = TaskStatus.done := by
      intro x hx
      cases x with
      | pending => exact absurd rfl (hnp _ hx)
      | running => exact absurd rfl (hnr _ hx)
      | done => rfl
    have hlen := pool_reachable_length hs
    exact List.eq_replicate_iff.2 ⟨hlen, hall⟩

/-- Witness instantiating `C9_concurrency_bound` at `N = 1`, `M = 2`. -/
theorem C9_concurrency_bound_witness :
    1 ≤ 1 ∧
    ((∀ s, poolReachable 1 2 s → statusCount .running s ≤ 1) ∧
      (∀ f : Nat → List TaskStatus, f 0 = pool_init 2 →
          (∀ n, pool_step 1 (f n) (f (n + 1))) → False) ∧
      (∀ s, poolReachable 1 2 s → (∀ t, ¬ pool_step 1 s t) →
          s = List.replicate 2 TaskStatus.done)) :=
  ⟨by decide, C9_concurrency_bound 1 2 (by decide)⟩

/-! ### `download_trailer` (file_manager.py lines 73-174) -/

/-- Outcome of the direct-URL HTTP transfer: an exception before the file
is opened, an exception after `written` has been written, or a complete
transfer of `content`. -/
inductive TransferResult
  | preOpenError
  | midError (written : Str)
  | success (content : Str)
deriving DecidableEq

/-- Collaborator behaviour observed by one `download_trailer` call:
whether `yt_dlp` is importable, the pre-existing `trailer.mp4` content,
whether the `yt-dlp` invocation raises, the `trailer.mp4` content after
that invocation, and the direct transfer's outcome. -/
structure DlWorld where
  yt_dlp_available : Bool
  initialFile : Option Str
  yt_raises : Bool
  yt_file : Option Str
  transfer : TransferResult
deriving DecidableEq

/-- Python's substring test `needle in hay`. -/
def containsSub (needle : Str) : Str → Bool
  | [] => needle.isEmpty
  | c :: rest => needle.isPrefixOf (c :: rest) || containsSub needle rest

/-- `"youtube.com" in video_url or "youtu.be" in video_url`. -/
def is_youtube (url : Str) : Bool :=
  containsSub (lit "youtube.com") url || containsSub (lit "youtu.be") url

/-- The HTML sniff on the first 100 bytes of the downloaded file. -/
def htmlHeader (c : Str) : Bool :=
  containsSub (lit "<html") (pyLower (c.take 100)) ||
    containsSub (lit "<!doctype") (pyLower (c.take 100))

set_option linter.unusedVariables false in
/-- `download_trailer`, returning the Python return value together with
the final content of `<folder>/trailer.mp4` (`none` = no file). The
inner `except` of the yt-dlp path returns `False` directly; only the
outer handler deletes a leftover file. -/
def download_trailer (w : DlWorld) (folder url : Str) : Bool × Option Str :=
  if is_youtube url then
    if ¬ w.yt_dlp_available then (false, w.initialFile)
    else if w.yt_raises then (false, w.yt_file)
    else
      match w.yt_file with
      | some c =>
        if c.length > 0 then
          if htmlHeader c then (false, none)
          else (true, some c)
        else (false, some c)
      | none => (false, none)
  else
    match w.transfer with
    | .preOpenError => (false, none)
    | .midError _ => (false, none)
    | .success c => (true, some c)

/-- World of the C10 counterexample: yt-dlp raises after writing part of
the file. -/
def c10_w : DlWorld where
  yt_dlp_available := true
  initialFile := none
  yt_raises := true
  yt_file := some (lit "PARTIALDATA")
  transfer := .preOpenError

/-- Claim C10 (counterexample): a yt-dlp invocation that raises after
partially writing `trailer.mp4` makes `download_trailer` return `False`
with the partial file still in place — the inner `except` skips the
cleanup. -/
theorem C10_counterexample :
    download_trailer c10_w (lit "/m/D {imdb-tt3}")
        (lit "https://youtube.com/watch?v=x") =
      (false, some (lit "PARTIALDATA")) := by decide

/-- Claim C10 (amended): on the direct-URL path `download_trailer` is
failure-atomic — a `False` return leaves no `trailer.mp4` (the outer
handler deletes any partial file) and `True` is returned exactly when
the transfer completed, with the transferred content in place; on the
yt-dlp path an exception inside the yt-dlp invocation returns `False`
without cleanup, leaving whatever file state the invocation produced. -/
theorem C10_download_atomicity (w : DlWorld) (folder url : Str) :
    (is_youtube url = false → (download_trailer w folder url).1 = false →
        (download_trailer w folder url).2 = none) ∧
    (is_youtube url = false → ∀ c, w.transfer = TransferResult.success c →
        download_trailer w folder url = (true, some c)) ∧
    (is_youtube url = false → (download_trailer w folder url).1 = true →
        ∃ c, w.transfer = TransferResult.success c ∧
          (download_trailer w folder url).2 = some c) ∧
    (is_youtube url = true → w.yt_dlp_available = true → w.yt_raises = true →
        download_trailer w folder url = (false, w.yt_file)) := by
  refine ⟨?_, ?_, ?_, ?_⟩
  · intro hy hf
    cases ht : w.transfer <;> simp [download_trailer, hy, ht] at hf ⊢
  · intro hy c ht
    simp [download_trailer, hy, ht]
  · intro hy ht
    cases hc : w.transfer <;> simp [download_trailer, hy, hc] at ht ⊢
  · intro hy ha hr
    simp [download_trailer, hy, ha, hr]

/-- World of the C10 witness: a direct transfer failing mid-write. -/
def c10b_w : DlWorld where
  yt_dlp_available := false
  initialFile := none
  yt_raises := false
  yt_file := none
  transfer := .midError (lit "HALF")

/-- Witness instantiating `C10_download_atomicity` on a direct URL whose
transfer fails after writing part of the file. -/
theorem C10_download_atomicity_witness :
    is_youtube (lit "http://cdn/v.mp4") = false ∧
    (download_trailer c10b_w (lit "/m/E {imdb-tt6}") (lit "http://cdn/v.mp4")).1 = false ∧
    (download_trailer c10b_w (lit "/m/E {imdb-tt6}") (lit "http://cdn/v.mp4")).2 = none :=
  ⟨by decide, by decide,
    (C10_download_atomicity c10b_w (lit "/m/E {imdb-tt6}") (lit "http://cdn/v.mp4")).1
      (by decide) (by decide)⟩

end Trailerfin
